import Mathlib

/-!
Verification of the yuutai-site performance-computation core.

Shallow embedding conventions:
* Python `float` values are modelled as `ℚ` (all arithmetic in the claims is
  exact rational arithmetic on the modelled inputs).
* Python `int` values are modelled as `ℤ` (or `ℕ` for calendar fields that
  are positive by construction).
* Python strings that the engine manipulates character-by-character are
  modelled as `List Char`.
* Code that can raise an exception is modelled in `Except`/`Option`
  (`ZeroDivisionError`, `ValueError` from `float()`/`int()`).
* Unbounded `while` loops over the calendar are modelled with explicit fuel,
  returning `none` when the fuel runs out.
-/

namespace Yuutai

/-! ## Performance engine (`scripts/calc_performance.py`) -/

/-- `DIVIDEND_ADJUSTMENT_RATE = 0.15315` (refund rate of the
dividend-adjustment payment, `calc_performance.py`). -/
def DIVIDEND_ADJUSTMENT_RATE : ℚ := 15315 / 100000

/-- `calc_performance(yuutai_value, required_shares, gyaku_hiboku, dividend, price)`
from `scripts/calc_performance.py` lines 99–127:
returns `0.0` when `price <= 0 or required_shares <= 0`, otherwise
`(yuutai_value/required_shares - gyaku_hiboku + dividend*0.15315) / price * 100`. -/
def calc_performance (yuutai_value : ℚ) (required_shares : ℤ)
    (gyaku_hiboku dividend price : ℚ) : ℚ :=
  if price ≤ 0 ∨ required_shares ≤ 0 then 0
  else
    let yuutai_per_share := yuutai_value / (required_shares : ℚ)
    let dividend_benefit := dividend * DIVIDEND_ADJUSTMENT_RATE
    let net_benefit := yuutai_per_share - gyaku_hiboku + dividend_benefit
    (net_benefit / price) * 100

/-- One row of the historical borrow-cost table of a parsed stock
(`parse_invest_jp.py` builds these records; the performance engine reads the
`gyaku_hiboku` and `close_price` fields). -/
structure GyakuRecord where
  gyaku_hiboku : ℚ
  close_price : ℚ
deriving DecidableEq, Repr

/-- One row of the historical dividend table of a parsed stock
(fields `amount` and `is_forecast`); the list is ordered most-recent-first. -/
structure DividendRecord where
  amount : ℚ
  is_forecast : Bool
deriving DecidableEq, Repr

/-- A parsed stock record (one element of `parsed_stocks.json`), restricted to
the fields the performance engine reads. -/
structure Stock where
  name : String
  gyaku_hiboku : List GyakuRecord
  dividend : List DividendRecord
  is_taishaku : Bool
deriving DecidableEq, Repr

/-- `get_latest_gyaku_hiboku(stock, settlement_month)` from
`calc_performance.py` lines 153–170: the average of the `gyaku_hiboku` values
of the first (at most) 6 historical records (`records[:6]`), `0.0` when the
history is empty.  The `settlement_month` argument is accepted but unused, as
in the source. -/
def get_latest_gyaku_hiboku (stock : Stock) (settlement_month : ℤ) : ℚ :=
  let records := stock.gyaku_hiboku
  if records.isEmpty then 0
  else
    let recent_records := records.take 6
    if recent_records.isEmpty then 0
    else ((recent_records.map (·.gyaku_hiboku)).sum) / (recent_records.length : ℚ)

/-- `get_latest_dividend(stock)` from `calc_performance.py` lines 173–184.
The source's first loop (`for r in records: if not r.get("is_forecast"):
continue`) has no effect and is omitted.  The second loop iterates
`reversed(records)` and returns the amount of the first non-forecast entry it
meets, i.e. the amount of the LAST non-forecast entry of `records`; `0.0`
when there is none. -/
def get_latest_dividend (stock : Stock) : ℚ :=
  let records := stock.dividend
  match records.reverse.find? (fun r => ! r.is_forecast) with
  | some r => r.amount
  | none => 0

/-- `get_latest_price(stock, code)` from `calc_performance.py` lines 202–218,
with the module-level price cache `_latest_prices` passed explicitly: the
cached live price when `code` is non-empty and present in the cache, else the
`close_price` of the most recent historical record, else `0.0`. -/
def get_latest_price (latest_prices : List (String × ℚ)) (stock : Stock)
    (code : String) : ℚ :=
  match (if code ≠ "" then latest_prices.lookup code else none) with
  | some p => p
  | none =>
    match stock.gyaku_hiboku with
    | [] => 0
    | r :: _ => r.close_price

end Yuutai

namespace Yuutai

/-! ## Decimal display with thousands separators -/

/-- `Char.ofNat (48 + d)`: the decimal digit character for `d < 10`. -/
def digitChar (d : ℕ) : Char := Char.ofNat (48 + d)

/-- The decimal digit characters of `n`, most significant first
(the characters of Python's `str(n)` for `n : ℕ`). -/
def natChars (n : ℕ) : List Char :=
  if h : n < 10 then [digitChar n]
  else natChars (n / 10) ++ [digitChar (n % 10)]
termination_by n
decreasing_by exact Nat.div_lt_self (by omega) (by omega)

/-- Insert `','` after every third character, counting from the head; applied
to a REVERSED digit list this realises Python's `"{:,}"` grouping. -/
def commaGroupRev : List Char → List Char
  | a :: b :: c :: d :: rest => a :: b :: c :: ',' :: commaGroupRev (d :: rest)
  | l => l

/-- Python's `f"{n:,}"`: decimal digits with a `','` every three digits
counting from the right, with a leading `'-'` for negative `n`. -/
def formatComma (n : ℤ) : List Char :=
  let chars := natChars n.natAbs
  let grouped := (commaGroupRev chars.reverse).reverse
  if n < 0 then '-' :: grouped else grouped

/-- `StockPerformance` (`calc_performance.py` lines 24–96), restricted to the
fields the claims mention. -/
structure StockPerformance where
  code : String
  name : String
  settlement_month : ℤ
  price : ℚ
  required_shares : ℤ
  yuutai_value : ℚ
  gyaku_hiboku : ℚ
  dividend : ℚ
  performance : ℚ
  is_taishaku : Bool
  is_differential : Bool
deriving DecidableEq, Repr

/-- `StockPerformance.required_shares_display` (`calc_performance.py` lines
69–75): `f"{required_shares:,}"`, prefixed with `'+'` when the entry is a
differential one. -/
def StockPerformance.required_shares_display (sp : StockPerformance) : List Char :=
  let formatted := formatComma sp.required_shares
  if sp.is_differential then '+' :: formatted else formatted

end Yuutai

namespace Yuutai

/-! ## Numeric-field parsing

`kachi.csv` rows reach `calculate_all_performance` as strings; the source
converts them with bare `float(...)` / `int(...)`, which raise `ValueError`
on malformed text.  By contrast `parse_number` / `parse_int` in
`scripts/parse_invest_jp.py` catch the exception and return the zero default.

A float-valued field is modelled abstractly as either well-formed numeric
text (carrying its value) or malformed text; the required-share field is kept
at string (`List Char`) level because its `'+'` marker matters. -/

/-- A float-valued CSV/JSON field: well-formed numeric text or malformed text. -/
inductive FloatField where
  | num (q : ℚ)
  | malformed (s : List Char)
deriving DecidableEq, Repr

/-- An int-valued CSV/JSON field: well-formed numeric text or malformed text. -/
inductive IntField where
  | num (z : ℤ)
  | malformed (s : List Char)
deriving DecidableEq, Repr

/-- Python's `float(text)`: the value on well-formed text, `ValueError`
(modelled as `Except.error`) on malformed text. -/
def pyFloat : FloatField → Except (List Char) ℚ
  | .num q => .ok q
  | .malformed s => .error s

/-- Python's `int(text)` on an int-valued field. -/
def pyIntField : IntField → Except (List Char) ℤ
  | .num z => .ok z
  | .malformed s => .error s

/-- `parse_number(text)` from `parse_invest_jp.py` lines 205–213: strips
commas/whitespace and returns `0.0` for empty or unparseable text, the value
otherwise. -/
def parse_number : FloatField → ℚ
  | .num q => q
  | .malformed _ => 0

/-- `parse_int(text)` from `parse_invest_jp.py` lines 216–224: like
`parse_number` but for integers. -/
def parse_int : IntField → ℤ
  | .num z => z
  | .malformed _ => 0

/-- Horner evaluation of a decimal digit string (`'0'`–`'9'` characters). -/
def digitsValNat (l : List Char) : ℕ :=
  l.foldl (fun acc c => 10 * acc + (c.toNat - 48)) 0

/-- Python's `int(s)` on a stripped string: an optional single `'+'`/`'-'`
sign followed by at least one decimal digit parses to the signed value;
anything else raises `ValueError`. -/
def pyInt (s : List Char) : Except (List Char) ℤ :=
  match s with
  | '+' :: rest =>
    if rest ≠ [] ∧ rest.all Char.isDigit then .ok (digitsValNat rest : ℤ)
    else .error s
  | '-' :: rest =>
    if rest ≠ [] ∧ rest.all Char.isDigit then .ok (-(digitsValNat rest : ℤ))
    else .error s
  | _ =>
    if s ≠ [] ∧ s.all Char.isDigit then .ok (digitsValNat s : ℤ)
    else .error s

/-- `required_shares_raw.startswith("+")`. -/
def startsPlus (s : List Char) : Bool :=
  match s with
  | '+' :: _ => true
  | _ => false

/-! ## The batch computation (`calculate_all_performance`) -/

/-- One row of `kachi.csv` (the entitlement registry) as it reaches
`calculate_all_performance`: all fields are text; `settlement_month` and
`yuutai_value` are modelled as parsed-or-malformed fields, the
required-share field at string level (its leading `'+'` matters). -/
structure KachiRow where
  code : String
  name : String
  settlement_month : IntField
  required_shares : List Char
  yuutai_value : FloatField
deriving DecidableEq, Repr

/-- The body of the `for kachi_data in kachi_list` loop of
`calculate_all_performance` (`calc_performance.py` lines 232–278) for a
single row: `none` when the row is skipped (month filter, or stock missing
from `parsed_stocks`), `Except.error` when a numeric conversion raises. -/
def processRow (stocks : List (String × Stock)) (latest_prices : List (String × ℚ))
    (month : Option ℤ) (row : KachiRow) : Except (List Char) (Option StockPerformance) :=
  match pyIntField row.settlement_month with
  | .error e => .error e
  | .ok settlement_month =>
    -- `if month and settlement_month != month: continue` (0 and None are falsy)
    if (match month with
        | some m => decide (m ≠ 0) && decide (settlement_month ≠ m)
        | none => false) then
      .ok none
    else
      match stocks.lookup row.code with
      | none => .ok none   -- stock absent from parsed_stocks.json: skipped
      | some stock =>
        match pyFloat row.yuutai_value with
        | .error e => .error e
        | .ok yuutai_value =>
          match pyInt row.required_shares with
          | .error e => .error e
          | .ok required_shares =>
            let is_differential := startsPlus row.required_shares
            let gyaku_hiboku := get_latest_gyaku_hiboku stock settlement_month
            let dividend := get_latest_dividend stock
            let price := get_latest_price latest_prices stock row.code
            let perf := calc_performance yuutai_value required_shares
              gyaku_hiboku dividend price
            .ok (some
              { code := row.code
                name := row.name
                settlement_month := settlement_month
                price := price
                required_shares := required_shares
                yuutai_value := yuutai_value
                gyaku_hiboku := gyaku_hiboku
                dividend := dividend
                performance := perf
                is_taishaku := stock.is_taishaku
                is_differential := is_differential })

/-- The registry loop of `calculate_all_performance`, in source order
(appending each produced result). -/
def processRows (stocks : List (String × Stock)) (latest_prices : List (String × ℚ))
    (month : Option ℤ) : List KachiRow → Except (List Char) (List StockPerformance)
  | [] => .ok []
  | row :: rest =>
    match processRow stocks latest_prices month row with
    | .error e => .error e
    | .ok r =>
      match processRows stocks latest_prices month rest with
      | .error e => .error e
      | .ok tail =>
        .ok (match r with
             | some sp => sp :: tail
             | none => tail)

/-- Descending-performance order used by the final
`results.sort(key=lambda x: x.performance, reverse=True)`. -/
def perfGE (a b : StockPerformance) : Prop := b.performance ≤ a.performance

instance : DecidableRel perfGE := fun a b =>
  inferInstanceAs (Decidable (b.performance ≤ a.performance))

instance : IsTotal StockPerformance perfGE :=
  ⟨fun a b => le_total b.performance a.performance⟩

instance : IsTrans StockPerformance perfGE :=
  ⟨fun _ _ _ hab hbc => le_trans hbc hab⟩

/-- `calculate_all_performance(month)` (`calc_performance.py` lines 221–283)
with its file inputs passed explicitly: process each registry row in order,
then sort the results by performance, descending.  A `ValueError` raised by
a numeric conversion propagates out of the whole batch. -/
def calculate_all_performance (kachi_list : List KachiRow)
    (stocks : List (String × Stock)) (latest_prices : List (String × ℚ))
    (month : Option ℤ) : Except (List Char) (List StockPerformance) :=
  match processRows stocks latest_prices month kachi_list with
  | .error e => .error e
  | .ok results => .ok (results.insertionSort perfGE)

/-- Spec-side definition for the C3 refinement comparison, following the
spec's words (§4.3): "Borrow cost (per share): InventorySnapshot's
precomputed 5-year average → 0" — the snapshot's `avg5_gyaku` field when
present, else 0. -/
def spec_borrow_cost (avg5_gyaku : Option ℚ) : ℚ := avg5_gyaku.getD 0

end Yuutai

namespace Yuutai

/-! ## Monthly-yield ranking (`scripts/yuutai_cli.py`) -/

/-- `INTEREST_RATE = 1.7` (annual borrow interest, percent). -/
def INTEREST_RATE : ℚ := 17 / 10

/-- One entry of `kachi.csv` as loaded by `load_kachi_data()`
(`yuutai_cli.py` lines 25–42). -/
structure KachiInfo where
  name : String
  month : ℤ
  kabusu : ℤ
  yutai_value : ℤ
deriving DecidableEq, Repr

/-- One stock of the monthly inventory snapshot (`zaiko_MM_*.json`),
restricted to the fields the ranking reads: the per-broker borrow-share
counts (`null` modelled as `none`) and the live price `kabuka`. -/
structure ZaikoStock where
  name : String
  zaiko : List (String × Option ℤ)
  kabuka : ℚ
deriving DecidableEq, Repr

/-- `has_zaiko(stock)` (`yuutai_cli.py` lines 56–60):
`nikko = stock.get("zaiko", {}).get("nikko"); nikko is not None and nikko > 0`
— only the `"nikko"` broker is consulted. -/
def has_zaiko (stock : ZaikoStock) : Bool :=
  match stock.zaiko.lookup "nikko" with
  | some (some nikko) => decide (0 < nikko)
  | _ => false

/-- Spec-side predicate for the C4 refinement comparison, following the
spec's words (§4.5): the stock "to have available borrow inventory with at
least one broker reporting positive share count". -/
def spec_has_inventory (stock : ZaikoStock) : Bool :=
  stock.zaiko.any (fun p =>
    match p.2 with
    | some n => decide (0 < n)
    | none => false)

/-- `calc_months_to_cross(target_month)` (`yuutai_cli.py` lines 63–72).
The source reads `current_month` from `datetime.now()` inside the function;
the embedding passes it explicitly as `current_month`. -/
def calc_months_to_cross (target_month current_month : ℤ) : ℤ :=
  if current_month ≤ target_month then target_month - current_month + 1
  else (12 - current_month) + target_month + 1

/-- Python float division: `ZeroDivisionError` (modelled as `none`) on a zero
divisor. -/
def pydiv (a b : ℚ) : Option ℚ :=
  if b = 0 then none else some (a / b)

/-- `calc_monthly_yield(stock, kachi_info, target_month)` (`yuutai_cli.py`
lines 75–101), with the clock month passed explicitly (the source reaches it
through `calc_months_to_cross`, which reads `datetime.now()`): returns `0`
when `kabuka <= 0 or kabusu <= 0 or yutai_value <= 0`, otherwise
`(yutai_value/kabusu - kabuka*(1.7/100)*(months/12)) / kabuka * 100 / months`. -/
def calc_monthly_yield (stock : ZaikoStock) (kachi_info : KachiInfo)
    (target_month current_month : ℤ) : Option ℚ :=
  let kabuka := stock.kabuka
  let kabusu := kachi_info.kabusu
  let yutai_value := kachi_info.yutai_value
  if kabuka ≤ 0 ∨ kabusu ≤ 0 ∨ yutai_value ≤ 0 then some 0
  else
    let months := calc_months_to_cross target_month current_month
    do
      let value_per_share ← pydiv (yutai_value : ℚ) (kabusu : ℚ)
      let interest := kabuka * (INTEREST_RATE / 100) * ((months : ℚ) / 12)
      let t ← pydiv (value_per_share - interest) kabuka
      pydiv (t * 100) ((months : ℚ))

/-- An element of the ranked list: the snapshot stock, its code, and the
`monthly_yield` value attached by `show_month_ranking`. -/
structure Ranked where
  code : String
  stock : ZaikoStock
  monthly_yield : ℚ
deriving DecidableEq, Repr

/-- The filtering loop of `show_month_ranking` (`yuutai_cli.py` lines
113–120): keep the snapshot entries that pass `has_zaiko` and whose code is
in `kachi_data`, attaching their monthly yield. -/
def gatherSurvivors (kachi_data : List (String × KachiInfo))
    (month current_month : ℤ) :
    List (String × ZaikoStock) → Option (List Ranked)
  | [] => some []
  | (code, stock) :: rest =>
    if has_zaiko stock then
      match kachi_data.lookup code with
      | some kachi_info =>
        match calc_monthly_yield stock kachi_info month current_month with
        | none => none
        | some y =>
          match gatherSurvivors kachi_data month current_month rest with
          | none => none
          | some tail => some (⟨code, stock, y⟩ :: tail)
      | none => gatherSurvivors kachi_data month current_month rest
    else gatherSurvivors kachi_data month current_month rest

/-- Descending-yield order used by
`stocks_with_zaiko.sort(key=lambda x: x["monthly_yield"], reverse=True)`. -/
def yieldGE (a b : Ranked) : Prop := b.monthly_yield ≤ a.monthly_yield

instance : DecidableRel yieldGE := fun a b =>
  inferInstanceAs (Decidable (b.monthly_yield ≤ a.monthly_yield))

instance : IsTotal Ranked yieldGE :=
  ⟨fun a b => le_total b.monthly_yield a.monthly_yield⟩

instance : IsTrans Ranked yieldGE :=
  ⟨fun _ _ _ hab hbc => le_trans hbc hab⟩

/-- `show_month_ranking(month)` (`yuutai_cli.py` lines 104–127), up to the
list it ranks (printing and the display `limit` slice are I/O): the
surviving snapshot entries sorted by monthly yield, descending.  The
snapshot and registry are passed explicitly; `none` models a
`ZeroDivisionError` escaping the loop. -/
def show_month_ranking (data : List (String × ZaikoStock))
    (kachi_data : List (String × KachiInfo)) (month current_month : ℤ) :
    Option (List Ranked) :=
  (gatherSurvivors kachi_data month current_month data).map
    (fun l => l.insertionSort yieldGE)

end Yuutai

namespace Yuutai

/-! ## Calendar engine (`scripts/generate_html.py`)

Dates are civil triples `(year, month, day)`.  The `jpholiday.is_holiday`
predicate is an external library, passed as a `hol` parameter.  The
unbounded `while` walks take explicit fuel. -/

/-- A Python `datetime.date`. -/
structure PyDate where
  year : ℕ
  month : ℕ
  day : ℕ
deriving DecidableEq, Repr

/-- Gregorian leap year, as in Python's `calendar`/`datetime`. -/
def isLeap (y : ℕ) : Bool := y % 4 = 0 ∧ (y % 100 ≠ 0 ∨ y % 400 = 0)

/-- Days in a month of the Gregorian calendar. -/
def daysInMonth (y m : ℕ) : ℕ :=
  if m = 2 then (if isLeap y then 29 else 28)
  else if m = 4 ∨ m = 6 ∨ m = 9 ∨ m = 11 then 30
  else 31

/-- Days before the first of month `m` in a non-leap year. -/
def daysBeforeMonthTable : ℕ → ℕ
  | 1 => 0 | 2 => 31 | 3 => 59 | 4 => 90 | 5 => 120 | 6 => 151
  | 7 => 181 | 8 => 212 | 9 => 243 | 10 => 273 | 11 => 304 | 12 => 334
  | _ => 0

/-- Days before the first of month `m` of year `y`. -/
def daysBeforeMonth (y m : ℕ) : ℕ :=
  daysBeforeMonthTable m + (if 2 < m ∧ isLeap y then 1 else 0)

/-- Python's `date.toordinal()`: day 1 is January 1 of year 1 (proleptic
Gregorian). -/
def toOrdinal (d : PyDate) : ℕ :=
  365 * (d.year - 1) + (d.year - 1) / 4 - (d.year - 1) / 100 + (d.year - 1) / 400
    + daysBeforeMonth d.year d.month + d.day

/-- Python's `date.weekday()`: Monday = 0 … Sunday = 6
(ordinal 1, January 1 of year 1, is a Monday). -/
def weekday (d : PyDate) : ℕ := (toOrdinal d + 6) % 7

/-- `d - timedelta(days=1)` on a valid civil date. -/
def prevDay (d : PyDate) : PyDate :=
  if 1 < d.day then ⟨d.year, d.month, d.day - 1⟩
  else if 1 < d.month then ⟨d.year, d.month - 1, daysInMonth d.year (d.month - 1)⟩
  else ⟨d.year - 1, 12, 31⟩

/-- `d + timedelta(days=1)` on a valid civil date. -/
def nextDay (d : PyDate) : PyDate :=
  if d.day < daysInMonth d.year d.month then ⟨d.year, d.month, d.day + 1⟩
  else if d.month < 12 then ⟨d.year, d.month + 1, 1⟩
  else ⟨d.year + 1, 1, 1⟩

/-- `is_business_day(d)` (`generate_html.py` lines 27–33): false on Saturday
or Sunday (`weekday() >= 5`) or when the holiday predicate holds. -/
def is_business_day (hol : PyDate → Bool) (d : PyDate) : Bool :=
  if 5 ≤ weekday d then false
  else if hol d then false
  else true

/-- The backward walk `while not is_business_day(last_day): last_day -= 1`,
with fuel. -/
def walkBackToBusiness (hol : PyDate → Bool) : ℕ → PyDate → Option PyDate
  | 0, _ => none
  | fuel + 1, d =>
    if is_business_day hol d then some d
    else walkBackToBusiness hol fuel (prevDay d)

/-- `get_next_business_day(d)` (`generate_html.py` lines 36–40): `d` itself
when it is a business day, else the forward walk. -/
def get_next_business_day (hol : PyDate → Bool) : ℕ → PyDate → Option PyDate
  | 0, _ => none
  | fuel + 1, d =>
    if is_business_day hol d then some d
    else get_next_business_day hol fuel (nextDay d)

/-- The calendar last day of a month as the source computes it
(`generate_html.py` lines 45–49): first of the following month (with
December→January year rollover) minus one day. -/
def lastDayOfMonth (year month : ℕ) : PyDate :=
  if month = 12 then prevDay ⟨year + 1, 1, 1⟩
  else prevDay ⟨year, month + 1, 1⟩

/-- `get_last_business_day_of_month(year, month)` (`generate_html.py` lines
43–54). -/
def get_last_business_day_of_month (hol : PyDate → Bool) (fuel : ℕ)
    (year month : ℕ) : Option PyDate :=
  walkBackToBusiness hol fuel (lastDayOfMonth year month)

/-- The counting loop of `get_kenri_tsuki_bi`: step back one day at a time,
decrementing `n` at each business day, until `n` business days have been
counted; the result is the day at which the last count happened. -/
def backNBusiness (hol : PyDate → Bool) : ℕ → ℕ → PyDate → Option PyDate
  | _, 0, d => some d
  | 0, _ + 1, _ => none
  | fuel + 1, n + 1, d =>
    let d' := prevDay d
    if is_business_day hol d' then backNBusiness hol fuel n d'
    else backNBusiness hol fuel (n + 1) d'

/-- `get_kenri_tsuki_bi(year, month)` (`generate_html.py` lines 57–69): the
last business day of the month, then walk backward until exactly 2 business
days have been counted. -/
def get_kenri_tsuki_bi (hol : PyDate → Bool) (fuel : ℕ) (year month : ℕ) :
    Option PyDate :=
  (get_last_business_day_of_month hol fuel year month).bind
    (backNBusiness hol fuel 2)

/-- The strictly-previous business day: the backward walk started one day
earlier. -/
def prevBusinessDay (hol : PyDate → Bool) (fuel : ℕ) (d : PyDate) : Option PyDate :=
  walkBackToBusiness hol fuel (prevDay d)

/-- Modelled from the spec: the repository's business-day predicate delegates
holiday recognition to the external `jpholiday` library, which is not part of
the repository; the spec (§4.1) says only "a recognized public holiday".  We
model the recognized-public-holiday set near the claims' concrete dates.
There is no Japanese public holiday in December 2024, the only month the
concrete record-date computation visits. -/
def jp_holidays : List PyDate :=
  [⟨2024, 11, 3⟩, ⟨2024, 11, 4⟩, ⟨2024, 11, 23⟩,
   ⟨2025, 1, 1⟩, ⟨2025, 1, 13⟩, ⟨2025, 2, 11⟩, ⟨2025, 2, 23⟩, ⟨2025, 2, 24⟩]

/-- The modelled `jpholiday.is_holiday` predicate. -/
def jp_hol (d : PyDate) : Bool := decide (d ∈ jp_holidays)

/-- Round-half-even (Python's `round`) of `q` to an integer. -/
def pyRoundInt (q : ℚ) : ℤ :=
  let f := ⌊q⌋
  let r := q - (f : ℚ)
  if r < 1 / 2 then f
  else if 1 / 2 < r then f + 1
  else if f % 2 = 0 then f else f + 1

/-- Python's `round(q, 3)`. -/
def pyRound3 (q : ℚ) : ℚ := (pyRoundInt (q * 1000) : ℚ) / 1000

/-- The result dictionary of `calculate_month_interest`. -/
structure MonthInterestInfo where
  kenri_date : PyDate
  start_date : PyDate
  days : ℤ
  interest : ℚ
deriving DecidableEq, Repr

/-- `calculate_month_interest(month, base_date)` (`generate_html.py` lines
72–109): `base_date` ("today") is an explicit parameter in the source
(defaulting to `date.today()` only when the caller omits it). -/
def calculate_month_interest (hol : PyDate → Bool) (fuel : ℕ) (month : ℕ)
    (base_date : PyDate) : Option MonthInterestInfo := do
  let start_date ← get_next_business_day hol fuel base_date
  let kenri0 ← get_kenri_tsuki_bi hol fuel base_date.year month
  let kenri_date ←
    if toOrdinal kenri0 < toOrdinal start_date then
      get_kenri_tsuki_bi hol fuel (base_date.year + 1) month
    else pure kenri0
  let days : ℤ := (toOrdinal kenri_date : ℤ) - (toOrdinal start_date : ℤ)
  some { kenri_date := kenri_date
         start_date := start_date
         days := days
         interest := pyRound3 (INTEREST_RATE * ((days : ℚ) / 365)) }

end Yuutai

namespace Yuutai

/-! ## Concrete fixtures used by witnesses and counterexamples -/

/-- A differential `StockPerformance` entry with 300 required shares
(registry string `"+300"`). -/
def sp300 : StockPerformance :=
  { code := "8200", name := "W", settlement_month := 2, price := 1500,
    required_shares := 300, yuutai_value := 2000, gyaku_hiboku := 0,
    dividend := 0, performance := 0, is_taishaku := false,
    is_differential := true }

/-- A differential `StockPerformance` entry with 1000 required shares
(registry string `"+1000"`). -/
def sp1000 : StockPerformance :=
  { code := "1234", name := "X", settlement_month := 3, price := 2000,
    required_shares := 1000, yuutai_value := 3000, gyaku_hiboku := 0,
    dividend := 0, performance := 0, is_taishaku := false,
    is_differential := true }

/-- A snapshot stock whose Nikko broker reports 3 borrowable shares. -/
def zsNikko : ZaikoStock := ⟨"C", [("nikko", some 3)], 2000⟩

/-- A snapshot stock with positive inventory at a broker other than Nikko
(and no `"nikko"` key at all). -/
def zsOther : ZaikoStock := ⟨"A", [("smbc", some 5)], 2000⟩

/-- A registry entry: 100 shares, entitlement value 3000, month 1. -/
def kiBase : KachiInfo := ⟨"C", 1, 100, 3000⟩

/-- A parsed stock with two historical borrow-cost records. -/
def stockT : Stock :=
  { name := "T", gyaku_hiboku := [⟨4, 2000⟩, ⟨6, 1980⟩], dividend := [],
    is_taishaku := false }

/-- A well-formed `kachi.csv` row for `stockT`. -/
def rowGood : KachiRow :=
  { code := "7777", name := "T", settlement_month := .num 3,
    required_shares := ['1', '0', '0'], yuutai_value := .num 3000 }

/-- The same row with a malformed entitlement-value field (`float("abc")`
raises `ValueError`). -/
def rowBad : KachiRow :=
  { code := "7777", name := "T", settlement_month := .num 3,
    required_shares := ['1', '0', '0'], yuutai_value := .malformed ['a', 'b', 'c'] }

end Yuutai

namespace Yuutai

/-! ## Theorems -/

/-- C1: for every input, `calc_performance` returns exactly `0.0` when
`price <= 0` or `required_shares <= 0` and otherwise
`((yuutai_value / required_shares) - gyaku_hiboku + dividend * 0.15315) / price * 100`;
for yuutai_value 3000, shares 100, borrow cost 2.5, dividend 50, price 2000
the net benefit per share is 35.1575 and the result is 1.757875 ≈ 1.7579. -/
theorem C1_calc_performance_formula (yv : ℚ) (rs : ℤ) (gh dv pr : ℚ) :
    calc_performance yv rs gh dv pr =
      (if pr ≤ 0 ∨ rs ≤ 0 then 0
       else (yv / (rs : ℚ) - gh + dv * (15315 / 100000)) / pr * 100)
    ∧ ((3000 : ℚ) / 100 - 5 / 2 + 50 * DIVIDEND_ADJUSTMENT_RATE = 351575 / 10000)
    ∧ calc_performance 3000 100 (5 / 2) 50 2000 = 1757875 / 1000000
    ∧ |calc_performance 3000 100 (5 / 2) 50 2000 - 17579 / 10000| < 1 / 10000 := by
  refine ⟨rfl, by norm_num [DIVIDEND_ADJUSTMENT_RATE], ?_, ?_⟩ <;>
    norm_num [calc_performance, DIVIDEND_ADJUSTMENT_RATE, abs_lt]

/-- C2 (code bug): on a most-recent-first dividend history
`[(100, actual), (80, forecast), (50, actual)]` the code returns the OLDEST
actual amount 50, not the most recent actual 100; on an all-forecast history
`[(30, forecast)]` it returns 0, never falling back to the most recent
forecast; the parsed-stock record carries no InventorySnapshot dividend
field at all. -/
theorem C2_dividend_code_eval :
    get_latest_dividend
      { name := "A", gyaku_hiboku := [],
        dividend := [⟨100, false⟩, ⟨80, true⟩, ⟨50, false⟩],
        is_taishaku := false } = 50
    ∧ (50 : ℚ) ≠ 100
    ∧ get_latest_dividend
        { name := "B", gyaku_hiboku := [], dividend := [⟨30, true⟩],
          is_taishaku := false } = 0
    ∧ (0 : ℚ) ≠ 30 :=
  ⟨rfl, by norm_num, rfl, by norm_num⟩

/-- C3 (counterexample): the borrow cost fed into the performance
computation for a stock with history `[4, 6]` is their mean 5 — the batch
emits `gyaku_hiboku = 5` — while an inventory snapshot reporting a
precomputed 5-year average of 10 would give 10 under the spec's rule; the
snapshot field is not even an input of `calculate_all_performance`. -/
theorem C3_borrow_cost_counterexample :
    (calculate_all_performance
        [{ code := "7777", name := "T", settlement_month := .num 3,
           required_shares := ['1', '0', '0'], yuutai_value := .num 3000 }]
        [("7777", { name := "T", gyaku_hiboku := [⟨4, 2000⟩, ⟨6, 1980⟩],
                    dividend := [], is_taishaku := false })]
        [("7777", 2000)] none).map (fun l => l.map (·.gyaku_hiboku)) = .ok [5]
    ∧ get_latest_gyaku_hiboku
        { name := "T", gyaku_hiboku := [⟨4, 2000⟩, ⟨6, 1980⟩],
          dividend := [], is_taishaku := false } 3 = 5
    ∧ spec_borrow_cost (some 10) = 10
    ∧ (5 : ℚ) ≠ 10 := by
  refine ⟨?_, ?_, rfl, by norm_num⟩
  · norm_num [calculate_all_performance, processRows, processRow, pyFloat,
      pyIntField, startsPlus, get_latest_gyaku_hiboku,
      get_latest_dividend, get_latest_price, calc_performance,
      DIVIDEND_ADJUSTMENT_RATE, List.lookup, List.insertionSort,
      List.orderedInsert, Except.map, Except.bind, Except.pure,
      show pyInt ['1', '0', '0'] = .ok 100 from rfl,
      show (("7777" : String) = "") = False from eq_false (by decide)]
  · norm_num [get_latest_gyaku_hiboku]

/-- C3 (amended): the per-share borrow cost fed into the performance
computation is the arithmetic mean of the `gyaku_hiboku` values of the (at
most 6) most recent historical borrow-cost records, and 0 when the history
is empty; the snapshot's precomputed 5-year average is not consulted. -/
theorem C3_borrow_cost_from_history (stock : Stock) (m : ℤ) :
    get_latest_gyaku_hiboku stock m =
      if stock.gyaku_hiboku = [] then 0
      else ((stock.gyaku_hiboku.take 6).map (·.gyaku_hiboku)).sum /
        ((min 6 stock.gyaku_hiboku.length : ℕ) : ℚ) := by
  unfold get_latest_gyaku_hiboku
  cases h : stock.gyaku_hiboku with
  | nil => simp
  | cons r rest =>
    have h1 : (r :: rest).take 6 = r :: rest.take 5 := rfl
    have h2 : (r :: rest.take 5).length = min 6 (r :: rest).length := by
      simp [List.length_take]; omega
    simp only [h1, List.isEmpty_cons, Bool.false_eq_true, if_false, h2]
    simp

/-- C6: `calc_months_to_cross(target, current)` equals
`target - current + 1` when `target >= current` and
`(12 - current) + target + 1` otherwise; for months in 1..12 its value is
always between 1 and 12; and `calc_months_to_cross 3 11 = 5`. -/
theorem C6_months_to_cross (t c : ℤ)
    (h1 : 1 ≤ t) (h2 : t ≤ 12) (h3 : 1 ≤ c) (h4 : c ≤ 12) :
    calc_months_to_cross t c = (if c ≤ t then t - c + 1 else (12 - c) + t + 1)
    ∧ 1 ≤ calc_months_to_cross t c ∧ calc_months_to_cross t c ≤ 12
    ∧ calc_months_to_cross 3 11 = 5 := by
  unfold calc_months_to_cross
  refine ⟨rfl, ?_, ?_, by norm_num⟩ <;> split_ifs <;> omega

/-- C6 witness at target 3, current 11. -/
theorem C6_months_to_cross_witness :
    calc_months_to_cross 3 11 = (if (11 : ℤ) ≤ 3 then 3 - 11 + 1 else (12 - 11) + 3 + 1)
    ∧ 1 ≤ calc_months_to_cross 3 11 ∧ calc_months_to_cross 3 11 ≤ 12
    ∧ calc_months_to_cross 3 11 = 5 :=
  C6_months_to_cross 3 11 (by norm_num) (by norm_num) (by norm_num) (by norm_num)

/-- C10: `calc_monthly_yield` returns exactly 0 — and cannot raise — whenever
the live price, the required lot size or the entitlement value is ≤ 0: the
guard fires before any division is executed. -/
theorem C10_monthly_yield_guard (stock : ZaikoStock) (info : KachiInfo)
    (t c : ℤ)
    (h : stock.kabuka ≤ 0 ∨ info.kabusu ≤ 0 ∨ info.yutai_value ≤ 0) :
    calc_monthly_yield stock info t c = some 0 := by
  unfold calc_monthly_yield
  rw [if_pos h]

/-- C10 witness: a stock priced at 0 yields `some 0`. -/
theorem C10_monthly_yield_guard_witness :
    calc_monthly_yield ⟨"Z", [], 0⟩ ⟨"Z", 1, 100, 3000⟩ 3 1 = some 0 :=
  C10_monthly_yield_guard ⟨"Z", [], 0⟩ ⟨"Z", 1, 100, 3000⟩ 3 1 (Or.inl (by norm_num))

end Yuutai

namespace Yuutai

theorem digitChar_facts (d : ℕ) (h : d < 10) :
    (digitChar d).isDigit = true ∧ (digitChar d).toNat = 48 + d := by
  interval_cases d <;> exact ⟨by decide, by decide⟩

theorem natChars_ne_nil (n : ℕ) : natChars n ≠ [] := by
  rw [natChars]; split <;> simp

theorem natChars_all_digits (n : ℕ) : (natChars n).all Char.isDigit = true := by
  induction n using Nat.strong_induction_on with
  | _ n ih =>
    rw [natChars]
    split
    · rename_i h
      simp [(digitChar_facts n h).1]
    · rename_i h
      have hd := Nat.div_lt_self (by omega : 0 < n) (by omega : 1 < 10)
      simp [List.all_append, ih (n / 10) hd,
        (digitChar_facts (n % 10) (Nat.mod_lt n (by omega))).1]

theorem natChars_horner (n : ℕ) : ∀ acc : ℕ,
    (natChars n).foldl (fun acc c => 10 * acc + (c.toNat - 48)) acc
      = acc * 10 ^ (natChars n).length + n := by
  induction n using Nat.strong_induction_on with
  | _ n ih =>
    intro acc
    rw [natChars]
    split
    · rename_i h
      simp [List.foldl, (digitChar_facts n h).2]
      omega
    · rename_i h
      have hd := Nat.div_lt_self (by omega : 0 < n) (by omega : 1 < 10)
      rw [List.foldl_append, List.length_append, ih (n / 10) hd acc]
      simp only [List.foldl, List.length_cons, List.length_nil,
        (digitChar_facts (n % 10) (Nat.mod_lt n (by omega))).2]
      have hmod : 10 * (n / 10) + n % 10 = n := Nat.div_add_mod n 10
      have h48 : 48 + n % 10 - 48 = n % 10 := by omega
      rw [h48]
      calc 10 * (acc * 10 ^ (natChars (n / 10)).length + n / 10) + n % 10
          = acc * (10 ^ (natChars (n / 10)).length * 10)
              + (10 * (n / 10) + n % 10) := by ring
        _ = acc * 10 ^ ((natChars (n / 10)).length + (0 + 1)) + n := by
              rw [hmod]; ring_nf

theorem digitsValNat_natChars (n : ℕ) : digitsValNat (natChars n) = n := by
  have h := natChars_horner n 0
  simpa [digitsValNat] using h

theorem natChars_length_le_three (n : ℕ) (h : n < 1000) :
    (natChars n).length ≤ 3 := by
  by_cases h1 : n < 10
  · rw [natChars, dif_pos h1]; simp
  · rw [natChars, dif_neg h1]
    by_cases h2 : n / 10 < 10
    · have e2 : natChars (n / 10) = [digitChar (n / 10)] := by
        rw [natChars, dif_pos h2]
      simp [e2]
    · have e2 : natChars (n / 10) = natChars (n / 10 / 10)
          ++ [digitChar (n / 10 % 10)] := by
        rw [natChars, dif_neg h2]
      have h3 : n / 10 / 10 < 10 := by omega
      have e3 : natChars (n / 10 / 10) = [digitChar (n / 10 / 10)] := by
        rw [natChars, dif_pos h3]
      simp [e2, e3]

theorem commaGroupRev_of_short (l : List Char) (h : l.length ≤ 3) :
    commaGroupRev l = l := by
  rcases l with _ | ⟨a, _ | ⟨b, _ | ⟨c, _ | ⟨d, t⟩⟩⟩⟩
  · rfl
  · rfl
  · rfl
  · rfl
  · simp at h

theorem formatComma_small (n : ℤ) (h0 : 0 ≤ n) (h1 : n < 1000) :
    formatComma n = natChars n.natAbs := by
  have hlen : (natChars n.natAbs).reverse.length ≤ 3 := by
    rw [List.length_reverse]
    exact natChars_length_le_three _ (by omega)
  simp only [formatComma]
  rw [if_neg (by omega : ¬ n < 0), commaGroupRev_of_short _ hlen,
    List.reverse_reverse]

theorem pyInt_plus_digits (n : ℕ) : pyInt ('+' :: natChars n) = .ok (n : ℤ) := by
  have hcond : natChars n ≠ [] ∧ (natChars n).all Char.isDigit = true :=
    ⟨natChars_ne_nil n, natChars_all_digits n⟩
  simp only [pyInt, if_pos hcond, digitsValNat_natChars]

/-- C8 (amended): for a differential registry entry whose share count is
below 1000 (so that the `"{:,}"` display inserts no thousands separator),
the displayed required-share count is exactly the original registry string
`'+'` followed by the decimal digits; stripping the `'+'` and re-applying
it is the identity on it; and that registry string parses back (`int(...)`
after the `startswith("+")` check) to the stored share count.  For counts
of 1000 and above the display inserts `','` separators, so only the
comma-grouped form — not the original registry string — is reconstructed. -/
theorem C8_display_round_trip (sp : StockPerformance)
    (hd : sp.is_differential = true)
    (h0 : 0 ≤ sp.required_shares) (h1 : sp.required_shares < 1000) :
    sp.required_shares_display = '+' :: natChars sp.required_shares.natAbs
    ∧ '+' :: sp.required_shares_display.drop 1 = sp.required_shares_display
    ∧ pyInt ('+' :: natChars sp.required_shares.natAbs) = .ok sp.required_shares := by
  have hfc := formatComma_small sp.required_shares h0 h1
  have hdisp : sp.required_shares_display
      = '+' :: natChars sp.required_shares.natAbs := by
    simp [StockPerformance.required_shares_display, hd, hfc]
  refine ⟨hdisp, by rw [hdisp]; rfl, ?_⟩
  rw [pyInt_plus_digits]
  congr 1
  omega

/-- C8 witness at a differential 300-share entry. -/
theorem C8_display_round_trip_witness :
    sp300.required_shares_display = '+' :: natChars sp300.required_shares.natAbs
    ∧ '+' :: sp300.required_shares_display.drop 1 = sp300.required_shares_display
    ∧ pyInt ('+' :: natChars sp300.required_shares.natAbs)
        = .ok sp300.required_shares :=
  C8_display_round_trip sp300 rfl (by norm_num [sp300]) (by norm_num [sp300])

/-- C8 (counterexample): the registry string `"+1000"` is stored as a
differential entry with 1000 required shares, but the display is
`"+1,000"`; stripping and re-applying the `'+'` yields `"+1,000"`, which is
not the original registry string `"+1000"`. -/
theorem C8_display_counterexample :
    sp1000.required_shares_display = ['+', '1', ',', '0', '0', '0']
    ∧ pyInt ['+', '1', '0', '0', '0'] = .ok 1000
    ∧ (['+', '1', ',', '0', '0', '0'] : List Char) ≠ ['+', '1', '0', '0', '0'] := by
  have e : natChars 1000 = ['1', '0', '0', '0'] := by
    simp [natChars]
    decide
  refine ⟨?_, rfl, by decide⟩
  simp [sp1000, StockPerformance.required_shares_display, formatComma, e,
    commaGroupRev]

end Yuutai

namespace Yuutai

theorem walkBackToBusiness_succ (hol : PyDate → Bool) (f : ℕ) (d : PyDate) :
    walkBackToBusiness hol (f + 1) d =
      (if is_business_day hol d then some d
       else walkBackToBusiness hol f (prevDay d)) := rfl

theorem walkBackToBusiness_mono (hol : PyDate → Bool) :
    ∀ (f : ℕ) (d r : PyDate), walkBackToBusiness hol f d = some r →
      walkBackToBusiness hol (f + 1) d = some r := by
  intro f
  induction f with
  | zero =>
    intro d r h
    simp [walkBackToBusiness] at h
  | succ f ih =>
    intro d r h
    rw [walkBackToBusiness_succ] at h
    rw [walkBackToBusiness_succ]
    by_cases hb : is_business_day hol d
    · simp only [hb, if_true] at h ⊢
      exact h
    · simp only [Bool.not_eq_true] at hb
      simp only [hb, Bool.false_eq_true, if_false] at h ⊢
      exact ih _ _ h

theorem prevBusinessDay_mono (hol : PyDate → Bool) (f : ℕ) (d r : PyDate)
    (h : prevBusinessDay hol f d = some r) :
    prevBusinessDay hol (f + 1) d = some r :=
  walkBackToBusiness_mono hol f _ r h

theorem backNBusiness_zero (hol : PyDate → Bool) (f : ℕ) (d : PyDate) :
    backNBusiness hol f 0 d = some d := by
  cases f <;> rfl

theorem backNBusiness_succ (hol : PyDate → Bool) (f n : ℕ) (d : PyDate) :
    backNBusiness hol (f + 1) (n + 1) d =
      (if is_business_day hol (prevDay d) then backNBusiness hol f n (prevDay d)
       else backNBusiness hol f (n + 1) (prevDay d)) := rfl

theorem backNBusiness_one_succ (hol : PyDate → Bool) (f : ℕ) (d : PyDate) :
    backNBusiness hol (f + 1) 1 d =
      (if is_business_day hol (prevDay d) then some (prevDay d)
       else backNBusiness hol f 1 (prevDay d)) := by
  show backNBusiness hol (f + 1) (0 + 1) d = _
  rw [backNBusiness_succ, backNBusiness_zero]

theorem backNBusiness_two_succ (hol : PyDate → Bool) (f : ℕ) (d : PyDate) :
    backNBusiness hol (f + 1) 2 d =
      (if is_business_day hol (prevDay d) then backNBusiness hol f 1 (prevDay d)
       else backNBusiness hol f 2 (prevDay d)) := by
  show backNBusiness hol (f + 1) (1 + 1) d = _
  rw [backNBusiness_succ]

theorem backNBusiness_one_eq (hol : PyDate → Bool) :
    ∀ (f : ℕ) (d : PyDate), backNBusiness hol f 1 d = prevBusinessDay hol f d := by
  intro f
  induction f with
  | zero => intro d; rfl
  | succ f ih =>
    intro d
    rw [backNBusiness_one_succ]
    show _ = walkBackToBusiness hol (f + 1) (prevDay d)
    rw [walkBackToBusiness_succ]
    by_cases hb : is_business_day hol (prevDay d)
    · simp only [hb, if_true]
    · simp only [Bool.not_eq_true] at hb
      simp only [hb, Bool.false_eq_true, if_false]
      rw [ih (prevDay d)]
      rfl

theorem backNBusiness_two_eq (hol : PyDate → Bool) :
    ∀ (f : ℕ) (d r : PyDate), backNBusiness hol f 2 d = some r →
      ∃ m1, prevBusinessDay hol f d = some m1
        ∧ prevBusinessDay hol f m1 = some r := by
  intro f
  induction f with
  | zero =>
    intro d r h
    rw [show backNBusiness hol 0 2 d = none from rfl] at h
    exact absurd h (by simp)
  | succ f ih =>
    intro d r h
    rw [backNBusiness_two_succ] at h
    by_cases hb : is_business_day hol (prevDay d)
    · rw [if_pos hb, backNBusiness_one_eq] at h
      refine ⟨prevDay d, ?_, prevBusinessDay_mono hol f _ r h⟩
      show walkBackToBusiness hol (f + 1) (prevDay d) = some (prevDay d)
      rw [walkBackToBusiness_succ, if_pos hb]
    · rw [if_neg hb] at h
      obtain ⟨m1, h1, h2⟩ := ih (prevDay d) r h
      refine ⟨m1, ?_, prevBusinessDay_mono hol f _ r h2⟩
      show walkBackToBusiness hol (f + 1) (prevDay d) = some m1
      rw [walkBackToBusiness_succ, if_neg hb]
      exact h1

/-- C5: whenever `get_kenri_tsuki_bi` returns a record date, that date is
obtained from the last business day of the month by stepping to the
strictly-previous business day exactly twice ("walk backward until exactly 2
business days have been skipped"); concretely, `recordDate(2024, 12)` — whose
month-end computation rolls over into January 2025 (`date(2025,1,1) -
timedelta(1)`) — is 2024-12-27, exactly 2 business days before the last
business day 2024-12-31 of December 2024 (via 2024-12-30; 28/29 are a
weekend). -/
theorem C5_record_date (hol : PyDate → Bool) (fuel : ℕ) (y m : ℕ) (r : PyDate)
    (h : get_kenri_tsuki_bi hol fuel y m = some r) :
    (∃ lb m1, get_last_business_day_of_month hol fuel y m = some lb
      ∧ prevBusinessDay hol fuel lb = some m1
      ∧ prevBusinessDay hol fuel m1 = some r)
    ∧ get_kenri_tsuki_bi jp_hol 50 2024 12 = some ⟨2024, 12, 27⟩
    ∧ get_last_business_day_of_month jp_hol 50 2024 12 = some ⟨2024, 12, 31⟩
    ∧ prevBusinessDay jp_hol 50 ⟨2024, 12, 31⟩ = some ⟨2024, 12, 30⟩
    ∧ prevBusinessDay jp_hol 50 ⟨2024, 12, 30⟩ = some ⟨2024, 12, 27⟩ := by
  constructor
  · unfold get_kenri_tsuki_bi at h
    cases hlb : get_last_business_day_of_month hol fuel y m with
    | none => rw [hlb] at h; exact absurd h (by simp)
    | some lb =>
      rw [hlb] at h
      simp only [Option.bind] at h
      obtain ⟨m1, h1, h2⟩ := backNBusiness_two_eq hol fuel lb r h
      exact ⟨lb, m1, rfl, h1, h2⟩
  · exact ⟨by decide, by decide, by decide, by decide⟩

/-- C5 witness: the concrete December 2024 instance. -/
theorem C5_record_date_witness :
    (∃ lb m1, get_last_business_day_of_month jp_hol 50 2024 12 = some lb
      ∧ prevBusinessDay jp_hol 50 lb = some m1
      ∧ prevBusinessDay jp_hol 50 m1 = some ⟨2024, 12, 27⟩)
    ∧ get_kenri_tsuki_bi jp_hol 50 2024 12 = some ⟨2024, 12, 27⟩
    ∧ get_last_business_day_of_month jp_hol 50 2024 12 = some ⟨2024, 12, 31⟩
    ∧ prevBusinessDay jp_hol 50 ⟨2024, 12, 31⟩ = some ⟨2024, 12, 30⟩
    ∧ prevBusinessDay jp_hol 50 ⟨2024, 12, 30⟩ = some ⟨2024, 12, 27⟩ :=
  C5_record_date jp_hol 50 2024 12 ⟨2024, 12, 27⟩ (by decide)

end Yuutai

namespace Yuutai

theorem gatherSurvivors_mem (kachi : List (String × KachiInfo)) (m c : ℤ) :
    ∀ (data : List (String × ZaikoStock)) (sv : List Ranked),
      gatherSurvivors kachi m c data = some sv →
      ∀ code : String,
        (∃ r ∈ sv, r.code = code) ↔
          ∃ s, (code, s) ∈ data ∧ has_zaiko s = true
            ∧ (kachi.lookup code).isSome = true := by
  intro data
  induction data with
  | nil =>
    intro sv h code
    simp only [gatherSurvivors] at h
    injection h with h2
    subst h2
    simp
  | cons p rest ih =>
    obtain ⟨pcode, pstock⟩ := p
    intro sv h code
    simp only [gatherSurvivors] at h
    by_cases hz : has_zaiko pstock
    · rw [if_pos hz] at h
      split at h
      next info hk =>
        split at h
        next hy => exact Option.noConfusion h
        next y hy =>
          split at h
          next ht => exact Option.noConfusion h
          next tail ht =>
            injection h with h2
            subst h2
            have iht := ih tail ht code
            constructor
            · rintro ⟨r, hr, hrc⟩
              rcases List.mem_cons.mp hr with heq | hmem
              · subst heq
                have h1 : pcode = code := hrc
                refine ⟨pstock, ?_, hz, ?_⟩
                · rw [← h1]
                  exact List.mem_cons_self _ _
                · rw [← h1, hk]
                  rfl
              · obtain ⟨s, hs, hzs, hsome⟩ := iht.mp ⟨r, hmem, hrc⟩
                exact ⟨s, List.mem_cons_of_mem _ hs, hzs, hsome⟩
            · rintro ⟨s, hs, hzs, hsome⟩
              rcases List.mem_cons.mp hs with heq | hmem
              · have h1 : code = pcode := congrArg Prod.fst heq
                exact ⟨⟨pcode, pstock, y⟩, List.mem_cons_self _ _, h1.symm⟩
              · obtain ⟨r, hr, hrc⟩ := iht.mpr ⟨s, hmem, hzs, hsome⟩
                exact ⟨r, List.mem_cons_of_mem _ hr, hrc⟩
      next hk =>
        rw [ih sv h code]
        constructor
        · rintro ⟨s, hs, hzs, hsome⟩
          exact ⟨s, List.mem_cons_of_mem _ hs, hzs, hsome⟩
        · rintro ⟨s, hs, hzs, hsome⟩
          rcases List.mem_cons.mp hs with heq | hmem
          · have h1 : code = pcode := congrArg Prod.fst heq
            rw [h1, hk] at hsome
            exact absurd hsome (by simp)
          · exact ⟨s, hmem, hzs, hsome⟩
    · rw [if_neg hz] at h
      rw [ih sv h code]
      constructor
      · rintro ⟨s, hs, hzs, hsome⟩
        exact ⟨s, List.mem_cons_of_mem _ hs, hzs, hsome⟩
      · rintro ⟨s, hs, hzs, hsome⟩
        rcases List.mem_cons.mp hs with heq | hmem
        · have h2 : s = pstock := congrArg Prod.snd heq
          rw [h2] at hzs
          exact absurd hzs hz
        · exact ⟨s, hmem, hzs, hsome⟩

/-- C4 (amended): a stock appears in the monthly-yield ranking exactly when
it is present in the entitlement registry (exact code match) and its
inventory snapshot reports a positive, non-null borrow-share count for the
NIKKO broker specifically (`has_zaiko` consults only the `"nikko"` key); the
surviving results are sorted by monthly yield, descending. -/
theorem C4_ranking (data : List (String × ZaikoStock))
    (kachi : List (String × KachiInfo)) (month current_month : ℤ)
    (l : List Ranked)
    (h : show_month_ranking data kachi month current_month = some l) :
    (∀ code : String,
      (∃ r ∈ l, r.code = code) ↔
        ∃ s, (code, s) ∈ data ∧ has_zaiko s = true
          ∧ (kachi.lookup code).isSome = true)
    ∧ List.Sorted yieldGE l := by
  unfold show_month_ranking at h
  cases hg : gatherSurvivors kachi month current_month data with
  | none => rw [hg] at h; exact absurd h (by simp)
  | some sv =>
    rw [hg] at h
    simp only [Option.map] at h
    injection h with h2
    subst h2
    constructor
    · intro code
      rw [← gatherSurvivors_mem kachi month current_month data sv hg code]
      constructor
      · rintro ⟨r, hr, hrc⟩
        exact ⟨r, (List.mem_insertionSort yieldGE).mp hr, hrc⟩
      · rintro ⟨r, hr, hrc⟩
        exact ⟨r, (List.mem_insertionSort yieldGE).mpr hr, hrc⟩
    · exact List.sorted_insertionSort yieldGE sv

/-- C4 witness: one Nikko-backed registry-listed stock survives and is
ranked. -/
theorem C4_ranking_witness :
    (∀ code : String,
      (∃ r ∈ ([⟨"1111", zsNikko, 163 / 120⟩] : List Ranked), r.code = code) ↔
        ∃ s, (code, s) ∈ [("1111", zsNikko)] ∧ has_zaiko s = true
          ∧ (([("1111", kiBase)] : List (String × KachiInfo)).lookup code).isSome
              = true)
    ∧ List.Sorted yieldGE ([⟨"1111", zsNikko, 163 / 120⟩] : List Ranked) :=
  C4_ranking [("1111", zsNikko)] [("1111", kiBase)] 1 1
    [⟨"1111", zsNikko, 163 / 120⟩]
    (by norm_num [show_month_ranking, gatherSurvivors, has_zaiko, zsNikko,
      kiBase, calc_monthly_yield, calc_months_to_cross, pydiv, INTEREST_RATE,
      List.lookup, List.insertionSort, List.orderedInsert, Option.map])

/-- C4 (counterexample): a stock whose only positive inventory is at a
broker other than Nikko satisfies the spec's any-broker gate and is in the
registry, yet the code's ranking for the month is empty — the claimed
membership equivalence fails. -/
theorem C4_ranking_counterexample :
    spec_has_inventory zsOther = true
    ∧ ("9999", zsOther) ∈ [("9999", zsOther)]
    ∧ (([("9999", kiBase)] : List (String × KachiInfo)).lookup "9999").isSome
        = true
    ∧ show_month_ranking [("9999", zsOther)] [("9999", kiBase)] 1 1 = some []
    ∧ ¬ ∃ r ∈ ([] : List Ranked), r.code = "9999" := by
  refine ⟨rfl, by simp, rfl, rfl, by simp⟩

end Yuutai

namespace Yuutai

theorem processRows_error (stocks : List (String × Stock))
    (latest_prices : List (String × ℚ)) (month : Option ℤ) :
    ∀ rows : List KachiRow,
      (∃ row ∈ rows, (processRow stocks latest_prices month row).isOk = false) →
      (processRows stocks latest_prices month rows).isOk = false := by
  intro rows
  induction rows with
  | nil =>
    rintro ⟨row, hmem, _⟩
    exact absurd hmem (by simp)
  | cons row rest ih =>
    rintro ⟨r0, hmem, hfail⟩
    simp only [processRows]
    rcases List.mem_cons.mp hmem with heq | hmem'
    · subst heq
      cases hp : processRow stocks latest_prices month r0 with
      | ok r =>
        rw [hp] at hfail
        simp [Except.isOk, Except.toBool] at hfail
      | error e => rfl
    · have hrest := ih ⟨r0, hmem', hfail⟩
      cases hp : processRow stocks latest_prices month row with
      | error e => rfl
      | ok r =>
        cases ht : processRows stocks latest_prices month rest with
        | error e => rfl
        | ok tail =>
          rw [ht] at hrest
          simp [Except.isOk, Except.toBool] at hrest

/-- C7 (amended): numeric fields parsed through `parse_number` / `parse_int`
(the snapshot/history parsers of `parse_invest_jp.py`) are treated as their
zero defaults on failure, but a registry row whose numeric field fails one of
the bare `float()` / `int()` conversions inside `calculate_all_performance`
raises out of the whole batch: no results are produced for any row, so one
bad row does block all others. -/
theorem C7_malformed_field (kachi_list : List KachiRow)
    (stocks : List (String × Stock)) (latest_prices : List (String × ℚ))
    (month : Option ℤ)
    (h : ∃ row ∈ kachi_list,
      (processRow stocks latest_prices month row).isOk = false) :
    (∀ s : List Char, parse_number (.malformed s) = 0
      ∧ parse_int (.malformed s) = 0)
    ∧ (calculate_all_performance kachi_list stocks latest_prices month).isOk
        = false := by
  refine ⟨fun s => ⟨rfl, rfl⟩, ?_⟩
  unfold calculate_all_performance
  have hrows := processRows_error stocks latest_prices month kachi_list h
  cases hp : processRows stocks latest_prices month kachi_list with
  | error e => rfl
  | ok results =>
    rw [hp] at hrows
    simp [Except.isOk, Except.toBool] at hrows

/-- C7 witness: a batch containing the malformed row `rowBad` produces no
result set. -/
theorem C7_malformed_field_witness :
    (∀ s : List Char, parse_number (.malformed s) = 0
      ∧ parse_int (.malformed s) = 0)
    ∧ (calculate_all_performance [rowGood, rowBad] [("7777", stockT)]
        [("7777", 2000)] none).isOk = false :=
  C7_malformed_field [rowGood, rowBad] [("7777", stockT)] [("7777", 2000)] none
    ⟨rowBad, by simp, rfl⟩

/-- C7 (counterexample): the batch over `[rowGood]` alone succeeds, but with
the malformed `rowBad` added the whole batch is a `ValueError`
(`Except.error`): the well-formed row's result is NOT produced, refuting
"one bad row must not block all others" for registry rows. -/
theorem C7_batch_abort_counterexample :
    (calculate_all_performance [rowGood] [("7777", stockT)]
      [("7777", 2000)] none).isOk = true
    ∧ (calculate_all_performance [rowGood, rowBad] [("7777", stockT)]
        [("7777", 2000)] none).isOk = false
    ∧ calculate_all_performance [rowGood, rowBad] [("7777", stockT)]
        [("7777", 2000)] none = .error ['a', 'b', 'c'] :=
  ⟨rfl, rfl, rfl⟩

/-- C9 (amended): given identical input snapshots AND an identical clock
reading, every engine entry point is deterministic: the batch performance
computation, the calendar interest window (whose "today" is an explicit,
injectable `base_date` parameter in the source), and the monthly-yield
computation (whose clock month the source reads internally via
`datetime.now()` inside `calc_months_to_cross`, so it must be supplied as an
extra input here). -/
theorem C9_determinism (kachi kachi' : List KachiRow)
    (stocks stocks' : List (String × Stock))
    (prices prices' : List (String × ℚ)) (month month' : Option ℤ)
    (hol : PyDate → Bool) (fuel : ℕ) (m : ℕ) (base base' : PyDate)
    (stock stock' : ZaikoStock) (info info' : KachiInfo) (tm tm' cm cm' : ℤ)
    (h1 : kachi = kachi') (h2 : stocks = stocks') (h3 : prices = prices')
    (h4 : month = month') (h5 : base = base') (h6 : stock = stock')
    (h7 : info = info') (h8 : tm = tm') (h9 : cm = cm') :
    calculate_all_performance kachi stocks prices month
      = calculate_all_performance kachi' stocks' prices' month'
    ∧ calculate_month_interest hol fuel m base
      = calculate_month_interest hol fuel m base'
    ∧ calc_monthly_yield stock info tm cm
      = calc_monthly_yield stock' info' tm' cm' := by
  subst h1; subst h2; subst h3; subst h4; subst h5
  subst h6; subst h7; subst h8; subst h9
  exact ⟨rfl, rfl, rfl⟩

/-- C9 witness: determinism at concrete inputs. -/
theorem C9_determinism_witness :
    calculate_all_performance [rowGood] [("7777", stockT)] [("7777", 2000)] none
      = calculate_all_performance [rowGood] [("7777", stockT)] [("7777", 2000)] none
    ∧ calculate_month_interest jp_hol 50 1 ⟨2024, 12, 20⟩
      = calculate_month_interest jp_hol 50 1 ⟨2024, 12, 20⟩
    ∧ calc_monthly_yield zsNikko kiBase 3 11 = calc_monthly_yield zsNikko kiBase 3 11 :=
  C9_determinism [rowGood] [rowGood] [("7777", stockT)] [("7777", stockT)]
    [("7777", 2000)] [("7777", 2000)] none none jp_hol 50 1
    ⟨2024, 12, 20⟩ ⟨2024, 12, 20⟩ zsNikko zsNikko kiBase kiBase 3 3 11 11
    rfl rfl rfl rfl rfl rfl rfl rfl rfl

/-- C9 (counterexample): with identical input snapshots, the monthly-yield
figure differs between a run in November (clock month 11) and a run in
January (clock month 1), because `calc_months_to_cross` reads the system
clock internally and takes no "today" parameter — so results are not
bit-identical across runs, and the injectable-parameter exception does not
cover this path. -/
theorem C9_clock_dependence_counterexample :
    calc_monthly_yield zsNikko kiBase 3 11 = some (19 / 120)
    ∧ calc_monthly_yield zsNikko kiBase 3 1 = some (43 / 120)
    ∧ ¬ ((19 : ℚ) / 120 = 43 / 120) := by
  refine ⟨?_, ?_, by norm_num⟩ <;>
    norm_num [calc_monthly_yield, calc_months_to_cross, pydiv, INTEREST_RATE,
      zsNikko, kiBase]

end Yuutai
